import Mathlib

/-!
Verification of the omni cross-chain attestation core against its
natural-language specification.

The development shallowly embeds two groups of code:

1. The xchain `Provider` from `halo2/app/start.go` (package `provider`):
   `getChain`, `stream`, `StreamAsync`, `StreamBlocks` and the `Verify`
   dependency are translated directly from the Go source.  The generic
   retry-safe stream engine (`lib/stream`, not part of the given sources)
   is modelled from the specification, section 4.2, as a deterministic
   interpreter `runStream` over a script of environment responses.

2. The attestation Aggregator (the `halo/attest` keeper, not part of the
   given sources) and the Indexer cursor writes, both modelled from the
   specification, sections 4.3 and 4.4.
-/

/-- Source model of `xchain.Block`: the fields inspected by the streaming
layer (`SourceChainID` and `BlockHeight`), plus the block hash standing in
for the remaining payload. -/
structure XBlock where
  sourceChainID : Nat
  blockHeight : Nat
  blockHash : Nat
deriving DecidableEq

/-- Translated from `Deps.Verify` in `Provider.stream` (halo2/app/start.go):
returns `some errorMessage` exactly when the fetched block does not match the
streamed chain id or the requested height, `none` on success. -/
def Verify (chainID : Nat) (block : XBlock) (h : Nat) : Option String :=
  if block.sourceChainID ≠ chainID then some "invalid block source chain id"
  else if block.blockHeight ≠ h then some "invalid block height"
  else none

/-- Boolean acceptance form of `Verify`, as consumed by the stream engine. -/
def verifyBool (chainID : Nat) (block : XBlock) (h : Nat) : Bool :=
  (Verify chainID block h).isNone

/-- One fetch response from the environment: a block, a "not yet finalized"
answer, or a transient error. -/
inductive FetchRes
  | ok (b : XBlock)
  | notExists
  | err
deriving DecidableEq

/-- One scripted interaction step for the stream engine: whether cancellation
is observed at the top of the iteration, the fetch answer used if a fetch is
issued, and the delivery answer (`none` means the callback succeeded,
`some e` that it failed with error code `e`). -/
structure Iter where
  cancel : Bool
  fetch : FetchRes
  deliver : Option Nat
deriving DecidableEq

/-- Terminal outcome of a stream run. -/
inductive Outcome
  | canceled
  | deliverErr (e : Nat)
deriving DecidableEq

/-- Internal state of the stream engine: the next height to fetch and an
already-fetched block awaiting (re)delivery, if any. -/
structure StreamState where
  height : Nat
  pending : Option XBlock
deriving DecidableEq

/-- Observable result of running the stream engine over a script: the heights
passed to fetch (in order), the blocks delivered (in order), the terminal
outcome (`none` when the script ran out while the engine was still looping),
and the final engine state. -/
structure RunResult where
  fetches : List Nat
  emitted : List XBlock
  outcome : Option Outcome
  final : StreamState
deriving DecidableEq

/-- Helper prepending a fetch height to a run result. -/
def consFetch (h : Nat) (r : RunResult) : RunResult :=
  { r with fetches := h :: r.fetches }

/-- Helper prepending a delivered block to a run result. -/
def consEmit (b : XBlock) (r : RunResult) : RunResult :=
  { r with emitted := b :: r.emitted }

/-- Modelled from the spec: the generic retry-safe stream engine of section
4.2 (`lib/stream.Stream`, whose source is not part of the given files; only
its dependency struct and callers appear in halo2/app/start.go).  Each loop
iteration first checks cancellation, then either (re)delivers a pending
block, or fetches the current height: a transient fetch error, a
"not yet finalized" answer and a verification mismatch all retry the same
height after backoff; a verified block is delivered; a failed delivery is
retried with the same block when `retry` is set and otherwise terminates the
run with that error.  Backoff waiting and the injected metric counters are
abstracted away, as they do not affect the decisions modelled here. -/
def runStream (vf : XBlock → Nat → Bool) (retry : Bool) : List Iter → StreamState → RunResult
  | [], s => ⟨[], [], none, s⟩
  | it :: rest, s =>
    if it.cancel then ⟨[], [], some Outcome.canceled, s⟩
    else
      match s.pending with
      | some b =>
        match it.deliver with
        | none => consEmit b (runStream vf retry rest ⟨s.height + 1, none⟩)
        | some e =>
          if retry then runStream vf retry rest s
          else ⟨[], [], some (Outcome.deliverErr e), s⟩
      | none =>
        match it.fetch with
        | FetchRes.ok b =>
          if vf b s.height then
            match it.deliver with
            | none => consFetch s.height (consEmit b (runStream vf retry rest ⟨s.height + 1, none⟩))
            | some e =>
              if retry then consFetch s.height (runStream vf retry rest ⟨s.height, some b⟩)
              else ⟨[s.height], [], some (Outcome.deliverErr e), s⟩
          else consFetch s.height (runStream vf retry rest s)
        | FetchRes.notExists => consFetch s.height (runStream vf retry rest s)
        | FetchRes.err => consFetch s.height (runStream vf retry rest s)

/-- Source model of `netconf.Chain`: the fields the Provider reads. -/
structure NetChain where
  id : Nat
  name : String
  deployHeight : Nat
deriving DecidableEq

/-- Source model of `provider.Provider`: the network chain configuration and
the set of chain ids for which an RPC client was dialled. -/
structure Provider where
  chains : List NetChain
  rpcClientIDs : List Nat

/-- Translated from `Provider.getChain` (halo2/app/start.go): looks up the
chain configuration for `chainID`, then requires an RPC client for it. -/
def Provider.getChain (p : Provider) (chainID : Nat) : Except String NetChain :=
  match p.chains.find? (fun c => c.id == chainID) with
  | none => Except.error "unknown chain ID for network"
  | some chain =>
    if p.rpcClientIDs.contains chainID then Except.ok chain
    else Except.error "no rpc client for chain ID"

/-- Translated from `Provider.stream` (halo2/app/start.go): retrieves the
chain configuration (erroring out before any streaming when it is missing),
clamps the start height up to the chain's deploy height, and runs the stream
engine with the chain-specific `Verify`.  The environment script stands in
for the remote chain and the callback. -/
def Provider.stream (p : Provider) (chainID fromHeight : Nat) (retryCallback : Bool)
    (script : List Iter) : Except String RunResult :=
  match p.getChain chainID with
  | Except.error e => Except.error e
  | Except.ok chain =>
    let start := if fromHeight < chain.deployHeight then chain.deployHeight else fromHeight
    Except.ok (runStream (verifyBool chainID) retryCallback script ⟨start, none⟩)

/-- Translated from `Provider.StreamAsync` (halo2/app/start.go): validates
the chain id via `getChain` and only then starts the background stream with
callback retry enabled; the returned `RunResult` is the trace of that
background stream. -/
def Provider.StreamAsync (p : Provider) (chainID fromHeight : Nat)
    (script : List Iter) : Except String RunResult :=
  match p.getChain chainID with
  | Except.error e => Except.error e
  | Except.ok _ => p.stream chainID fromHeight true script

/-- Translated from `Provider.StreamBlocks` (halo2/app/start.go): the
synchronous variant, streaming with callback retry disabled. -/
def Provider.StreamBlocks (p : Provider) (chainID fromHeight : Nat)
    (script : List Iter) : Except String RunResult :=
  p.stream chainID fromHeight false script

/-- Sanity check: a matching block passes verification. -/
theorem verify_sample_ok : Verify 7 ⟨7, 3, 99⟩ 3 = none := by decide

/-- Sanity check: a block from the wrong chain is rejected with the source's
error message. -/
theorem verify_sample_bad : Verify 7 ⟨8, 3, 99⟩ 3 = some "invalid block source chain id" := by decide

/-- Sanity check: a delivery, a transient fetch error retrying the same
height, then a synchronous delivery failure terminating the run. -/
theorem runStream_sample :
    runStream (fun _ _ => true) false
      [⟨false, FetchRes.ok ⟨1, 5, 0⟩, none⟩, ⟨false, FetchRes.err, none⟩,
       ⟨false, FetchRes.ok ⟨1, 6, 1⟩, some 9⟩] ⟨5, none⟩ =
    ⟨[5, 6, 6], [⟨1, 5, 0⟩], some (Outcome.deliverErr 9), ⟨6, none⟩⟩ := by decide

theorem consFetch_fetches (h : Nat) (r : RunResult) : (consFetch h r).fetches = h :: r.fetches := rfl

theorem consFetch_emitted (h : Nat) (r : RunResult) : (consFetch h r).emitted = r.emitted := rfl

theorem consFetch_outcome (h : Nat) (r : RunResult) : (consFetch h r).outcome = r.outcome := rfl

theorem consFetch_final (h : Nat) (r : RunResult) : (consFetch h r).final = r.final := rfl

theorem consEmit_fetches (b : XBlock) (r : RunResult) : (consEmit b r).fetches = r.fetches := rfl

theorem consEmit_emitted (b : XBlock) (r : RunResult) : (consEmit b r).emitted = b :: r.emitted := rfl

theorem consEmit_outcome (b : XBlock) (r : RunResult) : (consEmit b r).outcome = r.outcome := rfl

theorem consEmit_final (b : XBlock) (r : RunResult) : (consEmit b r).final = r.final := rfl

theorem runStream_final_height (vf : XBlock → Nat → Bool) (retry : Bool) :
    ∀ (script : List Iter) (s : StreamState),
      (runStream vf retry script s).final.height
        = s.height + (runStream vf retry script s).emitted.length := by
  intro script
  induction script with
  | nil => intro s; simp [runStream]
  | cons it rest ih =>
    intro s
    cases hc : it.cancel
    · cases hp : s.pending with
      | some b =>
        cases hd : it.deliver with
        | none =>
          have h1 := ih ⟨s.height + 1, none⟩
          simp [runStream, hc, hp, hd, consEmit_final, consEmit_emitted] at h1 ⊢
          omega
        | some e =>
          cases retry with
          | true =>
            have h1 := ih s
            simp [runStream, hc, hp, hd] at h1 ⊢
            omega
          | false => simp [runStream, hc, hp, hd]
      | none =>
        cases hf : it.fetch with
        | ok b =>
          cases hv : vf b s.height with
          | true =>
            cases hd : it.deliver with
            | none =>
              have h1 := ih ⟨s.height + 1, none⟩
              simp [runStream, hc, hp, hf, hv, hd, consFetch_final, consFetch_emitted,
                consEmit_final, consEmit_emitted] at h1 ⊢
              omega
            | some e =>
              cases retry with
              | true =>
                have h1 := ih ⟨s.height, some b⟩
                simp [runStream, hc, hp, hf, hv, hd, consFetch_final, consFetch_emitted] at h1 ⊢
                omega
              | false => simp [runStream, hc, hp, hf, hv, hd]
          | false =>
            have h1 := ih s
            simp [runStream, hc, hp, hf, hv, consFetch_final, consFetch_emitted] at h1 ⊢
            omega
        | notExists =>
          have h1 := ih s
          simp [runStream, hc, hp, hf, consFetch_final, consFetch_emitted] at h1 ⊢
          omega
        | err =>
          have h1 := ih s
          simp [runStream, hc, hp, hf, consFetch_final, consFetch_emitted] at h1 ⊢
          omega
    · simp [runStream, hc]

theorem runStream_fetches_mono (vf : XBlock → Nat → Bool) (retry : Bool) :
    ∀ (script : List Iter) (s : StreamState),
      List.Chain' (· ≤ ·) (runStream vf retry script s).fetches
      ∧ ∀ x ∈ (runStream vf retry script s).fetches, s.height ≤ x := by
  intro script
  induction script with
  | nil => intro s; simp [runStream]
  | cons it rest ih =>
    intro s
    cases hc : it.cancel
    · cases hp : s.pending with
      | some b =>
        cases hd : it.deliver with
        | none =>
          have h1 := ih ⟨s.height + 1, none⟩
          simp only [runStream, hc, hp, hd, Bool.false_eq_true, if_false, consEmit_fetches] at h1 ⊢
          exact ⟨h1.1, fun x hx => Nat.le_of_succ_le (h1.2 x hx)⟩
        | some e =>
          cases retry with
          | true =>
            have h1 := ih s
            simpa [runStream, hc, hp, hd] using h1
          | false => simp [runStream, hc, hp, hd]
      | none =>
        cases hf : it.fetch with
        | ok b =>
          cases hv : vf b s.height with
          | true =>
            cases hd : it.deliver with
            | none =>
              have h1 := ih ⟨s.height + 1, none⟩
              simp only [runStream, hc, hp, hf, hv, hd, Bool.false_eq_true, if_false, if_true,
                consFetch_fetches, consEmit_fetches] at h1 ⊢
              refine ⟨List.chain'_cons'.2 ⟨?_, h1.1⟩, ?_⟩
              · intro y hy
                exact Nat.le_of_succ_le (h1.2 y (List.mem_of_mem_head? hy))
              · intro x hx
                rcases List.mem_cons.1 hx with h | h
                · omega
                · exact Nat.le_of_succ_le (h1.2 x h)
            | some e =>
              cases retry with
              | true =>
                have h1 := ih ⟨s.height, some b⟩
                simp only [runStream, hc, hp, hf, hv, hd, Bool.false_eq_true, if_false, if_true,
                  consFetch_fetches] at h1 ⊢
                refine ⟨List.chain'_cons'.2 ⟨?_, h1.1⟩, ?_⟩
                · intro y hy
                  exact h1.2 y (List.mem_of_mem_head? hy)
                · intro x hx
                  rcases List.mem_cons.1 hx with h | h
                  · omega
                  · exact h1.2 x h
              | false => simp [runStream, hc, hp, hf, hv, hd]
          | false =>
            have h1 := ih s
            simp only [runStream, hc, hp, hf, hv, Bool.false_eq_true, if_false,
              consFetch_fetches] at h1 ⊢
            refine ⟨List.chain'_cons'.2 ⟨?_, h1.1⟩, ?_⟩
            · intro y hy
              exact h1.2 y (List.mem_of_mem_head? hy)
            · intro x hx
              rcases List.mem_cons.1 hx with h | h
              · omega
              · exact h1.2 x h
        | notExists =>
          have h1 := ih s
          simp only [runStream, hc, hp, hf, Bool.false_eq_true, if_false,
            consFetch_fetches] at h1 ⊢
          refine ⟨List.chain'_cons'.2 ⟨?_, h1.1⟩, ?_⟩
          · intro y hy
            exact h1.2 y (List.mem_of_mem_head? hy)
          · intro x hx
            rcases List.mem_cons.1 hx with h | h
            · omega
            · exact h1.2 x h
        | err =>
          have h1 := ih s
          simp only [runStream, hc, hp, hf, Bool.false_eq_true, if_false,
            consFetch_fetches] at h1 ⊢
          refine ⟨List.chain'_cons'.2 ⟨?_, h1.1⟩, ?_⟩
          · intro y hy
            exact h1.2 y (List.mem_of_mem_head? hy)
          · intro x hx
            rcases List.mem_cons.1 hx with h | h
            · omega
            · exact h1.2 x h
    · simp [runStream, hc]

theorem runStream_fetches_head (vf : XBlock → Nat → Bool) (retry : Bool)
    (script : List Iter) (s : StreamState) (hp : s.pending = none) :
    (runStream vf retry script s).fetches = []
    ∨ (runStream vf retry script s).fetches.head? = some s.height := by
  cases script with
  | nil => left; simp [runStream]
  | cons it rest =>
    cases hc : it.cancel
    · cases hf : it.fetch with
      | ok b =>
        cases hv : vf b s.height with
        | true =>
          cases hd : it.deliver with
          | none => right; simp [runStream, hc, hp, hf, hv, hd, consFetch_fetches]
          | some e =>
            cases retry with
            | true => right; simp [runStream, hc, hp, hf, hv, hd, consFetch_fetches]
            | false => right; simp [runStream, hc, hp, hf, hv, hd]
        | false => right; simp [runStream, hc, hp, hf, hv, consFetch_fetches]
      | notExists => right; simp [runStream, hc, hp, hf, consFetch_fetches]
      | err => right; simp [runStream, hc, hp, hf, consFetch_fetches]
    · left; simp [runStream, hc]

theorem clamp_eq_max (a b : Nat) : (if a < b then b else a) = max a b := by
  rw [Nat.max_def]
  split <;> split <;> omega

/-- C6: with `retry_delivery=false` (synchronous mode), a failing deliver
callback makes the stream call return that delivery error immediately: no
further fetch is attempted, nothing further is delivered, and the engine
state (in particular the height) is left exactly where it was. -/
theorem stream_sync_deliver_error (vf : XBlock → Nat → Bool) (it : Iter)
    (rest : List Iter) (s : StreamState) (b : XBlock) (e : Nat)
    (hc : it.cancel = false) (hp : s.pending = none)
    (hf : it.fetch = FetchRes.ok b) (hv : vf b s.height = true)
    (hd : it.deliver = some e) :
    runStream vf false (it :: rest) s
      = ⟨[s.height], [], some (Outcome.deliverErr e), s⟩ := by
  simp [runStream, hc, hp, hf, hv, hd]

theorem stream_sync_deliver_error_witness :
    runStream (verifyBool 1) false [⟨false, FetchRes.ok ⟨1, 9, 0⟩, some 42⟩] ⟨9, none⟩
      = ⟨[9], [], some (Outcome.deliverErr 42), ⟨9, none⟩⟩ :=
  stream_sync_deliver_error (verifyBool 1) ⟨false, FetchRes.ok ⟨1, 9, 0⟩, some 42⟩ []
    ⟨9, none⟩ ⟨1, 9, 0⟩ 42 rfl rfl rfl (by decide) rfl

/-- C7: with `retry_delivery=true`, a failed delivery is retried for the very
same block with no state change (the height never advances past an
undeliverable block), and a run in this mode never terminates with an error
other than the distinguished canceled outcome. -/
theorem stream_retry_no_error :
    (∀ (vf : XBlock → Nat → Bool) (script : List Iter) (s : StreamState) (o : Outcome),
        (runStream vf true script s).outcome = some o → o = Outcome.canceled)
    ∧ (∀ (vf : XBlock → Nat → Bool) (it : Iter) (rest : List Iter)
          (s : StreamState) (b : XBlock) (e : Nat),
        it.cancel = false → s.pending = some b → it.deliver = some e →
        runStream vf true (it :: rest) s = runStream vf true rest s) := by
  constructor
  · intro vf script
    induction script with
    | nil => intro s o h; simp [runStream] at h
    | cons it rest ih =>
      intro s o h
      cases hc : it.cancel
      · cases hp : s.pending with
        | some b =>
          cases hd : it.deliver with
          | none =>
            simp only [runStream, hc, hp, hd, Bool.false_eq_true, if_false,
              consEmit_outcome] at h
            exact ih ⟨s.height + 1, none⟩ o h
          | some e =>
            simp only [runStream, hc, hp, hd, Bool.false_eq_true, if_false, if_true] at h
            exact ih s o h
        | none =>
          cases hf : it.fetch with
          | ok b =>
            cases hv : vf b s.height with
            | true =>
              cases hd : it.deliver with
              | none =>
                simp only [runStream, hc, hp, hf, hv, hd, Bool.false_eq_true, if_false,
                  if_true, consFetch_outcome, consEmit_outcome] at h
                exact ih ⟨s.height + 1, none⟩ o h
              | some e =>
                simp only [runStream, hc, hp, hf, hv, hd, Bool.false_eq_true, if_false,
                  if_true, consFetch_outcome] at h
                exact ih ⟨s.height, some b⟩ o h
            | false =>
              simp only [runStream, hc, hp, hf, hv, Bool.false_eq_true, if_false,
                consFetch_outcome] at h
              exact ih s o h
          | notExists =>
            simp only [runStream, hc, hp, hf, Bool.false_eq_true, if_false,
              consFetch_outcome] at h
            exact ih s o h
          | err =>
            simp only [runStream, hc, hp, hf, Bool.false_eq_true, if_false,
              consFetch_outcome] at h
            exact ih s o h
      · simp [runStream, hc] at h
        exact h.symm
  · intro vf it rest s b e hc hp hd
    simp [runStream, hc, hp, hd]

theorem stream_retry_no_error_witness :
    Outcome.canceled = Outcome.canceled
    ∧ runStream (verifyBool 1) true [⟨false, FetchRes.err, some 3⟩] ⟨4, some ⟨1, 4, 0⟩⟩
        = runStream (verifyBool 1) true [] ⟨4, some ⟨1, 4, 0⟩⟩ :=
  ⟨stream_retry_no_error.1 (verifyBool 1) [⟨true, FetchRes.err, none⟩] ⟨0, none⟩
      Outcome.canceled rfl,
    stream_retry_no_error.2 (verifyBool 1) ⟨false, FetchRes.err, some 3⟩ []
      ⟨4, some ⟨1, 4, 0⟩⟩ ⟨1, 4, 0⟩ 3 rfl rfl rfl⟩

/-- C8: the Provider's verification step accepts a fetched block exactly when
its source chain id equals the streamed chain id and its height equals the
requested height; a mismatching block is not fatal to the stream: the engine
records the fetch attempt and retries the same height on the rest of the
script. -/
theorem verify_accept_iff :
    (∀ (c : Nat) (b : XBlock) (hh : Nat),
        Verify c b hh = none ↔ (b.sourceChainID = c ∧ b.blockHeight = hh))
    ∧ (∀ (c : Nat) (retry : Bool) (it : Iter) (rest : List Iter)
          (s : StreamState) (b : XBlock),
        it.cancel = false → s.pending = none → it.fetch = FetchRes.ok b →
        Verify c b s.height ≠ none →
        runStream (verifyBool c) retry (it :: rest) s
          = consFetch s.height (runStream (verifyBool c) retry rest s)) := by
  constructor
  · intro c b hh
    unfold Verify
    split <;> rename_i h1
    · simp
      intro h2
      exact absurd h2 h1
    · split <;> rename_i h2
      · simp
        intro _ h3
        exact absurd h3 h2
      · simp
        exact ⟨not_not.1 h1, not_not.1 h2⟩
  · intro c retry it rest s b hc hp hf hv
    have hb : verifyBool c b s.height = false := by
      unfold verifyBool
      cases h : Verify c b s.height with
      | none => exact absurd h hv
      | some e => rfl
    simp [runStream, hc, hp, hf, hb]

theorem verify_accept_iff_witness :
    Verify 2 ⟨2, 5, 0⟩ 5 = none
    ∧ runStream (verifyBool 2) false [⟨false, FetchRes.ok ⟨3, 7, 0⟩, none⟩] ⟨7, none⟩
        = consFetch 7 (runStream (verifyBool 2) false [] ⟨7, none⟩) :=
  ⟨(verify_accept_iff.1 2 ⟨2, 5, 0⟩ 5).2 ⟨rfl, rfl⟩,
    verify_accept_iff.2 2 false ⟨false, FetchRes.ok ⟨3, 7, 0⟩, none⟩ [] ⟨7, none⟩
      ⟨3, 7, 0⟩ rfl rfl rfl (by decide)⟩

/-- Helper recognising a successful `Except` result of the Provider API. -/
def streamOk {A : Type} (x : Except String A) : Bool :=
  match x with
  | Except.ok _ => true
  | Except.error _ => false

/-- C9 (amended): for every call to `Provider.stream(chain_id, start_height,
...)`, the heights passed to fetch begin at `max start_height deploy_height`
(the Go code clamps the start height up to the chain's configured deploy
height), never decrease, and the internal height advances by exactly one per
successful delivery. -/
theorem provider_stream_heights (p : Provider) (chainID fromHeight : Nat)
    (retryCallback : Bool) (script : List Iter) (chain : NetChain) (res : RunResult)
    (hg : p.getChain chainID = Except.ok chain)
    (hs : p.stream chainID fromHeight retryCallback script = Except.ok res) :
    (res.fetches = [] ∨ res.fetches.head? = some (max fromHeight chain.deployHeight))
    ∧ List.Chain' (· ≤ ·) res.fetches
    ∧ res.final.height = max fromHeight chain.deployHeight + res.emitted.length := by
  unfold Provider.stream at hs
  rw [hg] at hs
  simp only [Except.ok.injEq] at hs
  subst hs
  rw [clamp_eq_max] at *
  refine ⟨?_, ?_, ?_⟩
  · exact runStream_fetches_head (verifyBool chainID) retryCallback script
      ⟨max fromHeight chain.deployHeight, none⟩ rfl
  · exact (runStream_fetches_mono (verifyBool chainID) retryCallback script
      ⟨max fromHeight chain.deployHeight, none⟩).1
  · exact runStream_final_height (verifyBool chainID) retryCallback script
      ⟨max fromHeight chain.deployHeight, none⟩

/-- Concrete provider for the C9 counterexample: one chain with id 1 and
deploy height 5, with an RPC client dialled. -/
def pC9 : Provider := ⟨[⟨1, "chainA", 5⟩], [1]⟩

/-- One-iteration script whose fetch fails transiently. -/
def scrC9 : List Iter := [⟨false, FetchRes.err, none⟩]

/-- Expected trace of the C9 counterexample run. -/
def rC9 : RunResult := ⟨[5], [], none, ⟨5, none⟩⟩

/-- C9 (counterexample): calling `Provider.stream` with `start_height = 3` on
a chain whose deploy height is 5 makes the first fetched height 5, not the
requested start height 3, refuting the claim that the fetched heights begin
at `start_height`. -/
theorem provider_stream_heights_cex :
    Provider.stream pC9 1 3 true scrC9 = Except.ok rC9
    ∧ rC9.fetches.head? ≠ some 3 :=
  ⟨rfl, by decide⟩

theorem provider_stream_heights_witness :
    (rC9.fetches = [] ∨ rC9.fetches.head? = some (max 3 5))
    ∧ List.Chain' (· ≤ ·) rC9.fetches
    ∧ rC9.final.height = max 3 5 + rC9.emitted.length :=
  provider_stream_heights pC9 1 3 true scrC9 ⟨1, "chainA", 5⟩ rC9 rfl rfl

/-- C10: streaming is initiated exactly when both the network configuration
and the RPC client for the chain id exist: `getChain` succeeds iff both
lookups succeed, a `getChain` error is returned unchanged by both
`StreamAsync` and `StreamBlocks` (the error result carries no run trace, so
no fetch was performed and no background stream was started), and when
`getChain` succeeds both calls return a stream run. -/
theorem provider_unknown_chain (p : Provider) (chainID fromHeight : Nat)
    (script : List Iter) :
    (streamOk (p.getChain chainID) = true
        ↔ ((p.chains.find? (fun c => c.id == chainID)).isSome = true
            ∧ p.rpcClientIDs.contains chainID = true))
    ∧ (∀ e, p.getChain chainID = Except.error e →
        p.StreamAsync chainID fromHeight script = Except.error e
        ∧ p.StreamBlocks chainID fromHeight script = Except.error e)
    ∧ (∀ chain, p.getChain chainID = Except.ok chain →
        streamOk (p.StreamAsync chainID fromHeight script) = true
        ∧ streamOk (p.StreamBlocks chainID fromHeight script) = true) := by
  refine ⟨?_, ?_, ?_⟩
  · unfold Provider.getChain
    cases hf : p.chains.find? (fun c => c.id == chainID) with
    | none => simp [streamOk]
    | some chain =>
      cases hr : p.rpcClientIDs.contains chainID with
      | true => simp [streamOk, hr]
      | false => simp [streamOk, hr]
  · intro e he
    constructor
    · unfold Provider.StreamAsync
      rw [he]
    · unfold Provider.StreamBlocks Provider.stream
      rw [he]
  · intro chain hc
    constructor
    · unfold Provider.StreamAsync Provider.stream
      rw [hc]
      simp [streamOk]
    · unfold Provider.StreamBlocks Provider.stream
      rw [hc]
      simp [streamOk]

/-- Provider for the C10 witness: chain 2 is configured but no RPC client
was dialled for it. -/
def pC10 : Provider := ⟨[⟨2, "chainB", 0⟩], []⟩

theorem provider_unknown_chain_witness :
    Provider.StreamAsync pC10 2 0 [] = Except.error "no rpc client for chain ID"
    ∧ Provider.StreamBlocks pC10 2 0 [] = Except.error "no rpc client for chain ID" :=
  (provider_unknown_chain pC10 2 0 []).2.1 "no rpc client for chain ID" rfl

/-- Modelled from the spec: an `AttestationCandidate` (section 3), keyed by
its hash within one height, accumulating the distinct validators who voted
for it together with their weights. -/
structure Candidate where
  hash : Nat
  voters : List (Nat × Nat)
deriving DecidableEq

/-- Summed voting power of the candidate's recorded voters. -/
def Candidate.tally (c : Candidate) : Nat := (c.voters.map Prod.snd).sum

/-- Whether validator `v` is recorded on this candidate. -/
def Candidate.hasVoter (c : Candidate) (v : Nat) : Bool :=
  (c.voters.map Prod.fst).contains v

/-- Modelled from the spec: the Aggregator's per-chain configuration —
window size, quorum threshold fraction `thrNum/thrDen`, total active voting
power and the validator-set weight assignment (weight 0 means the validator
is not in the active set; signature verification is delegated to an
external collaborator and abstracted into this check). -/
structure AggParams where
  window : Nat
  thrNum : Nat
  thrDen : Nat
  totalPower : Nat
  power : Nat → Nat

/-- Ceiling of `num * t / den` over the naturals ("ties round up"). -/
def ceilMulDiv (num den t : Nat) : Nat := (num * t + (den - 1)) / den

/-- Modelled from the spec: the quorum threshold `ceil(f × T)` (sections 4.3
and 8) for threshold fraction `f = thrNum/thrDen` and total power `T`. -/
def quorumThreshold (p : AggParams) : Nat := ceilMulDiv p.thrNum p.thrDen p.totalPower

/-- Modelled from the spec: a candidate approves exactly when its tally
reaches or exceeds the quorum threshold. -/
def candidateApproved (p : AggParams) (c : Candidate) : Bool :=
  decide (quorumThreshold p ≤ c.tally)

/-- Record a voter on a candidate's voter list, ignoring a validator that is
already recorded (same-hash resubmissions are no-ops). -/
def recordVote (voters : List (Nat × Nat)) (v w : Nat) : List (Nat × Nat) :=
  if (voters.map Prod.fst).contains v then voters else (v, w) :: voters

/-- Modelled from the spec: the Aggregator's per-chain state (section 4.3) —
the watermark, the window of candidates per height, the approved-but-not-yet-
surfaced attestations `(height, hash)`, and the surfaced attestations
`(height, hash)` in emission order. -/
structure ChainState where
  watermark : Nat
  cands : List (Nat × List Candidate)
  pending : List (Nat × Nat)
  emitted : List (Nat × Nat)
deriving DecidableEq

/-- Candidates currently tracked at height `h`. -/
def candsAt (s : ChainState) (h : Nat) : List Candidate :=
  match s.cands.find? (fun e => e.fst == h) with
  | some e => e.snd
  | none => []

/-- Hash validator `v` is recorded as having voted for at height `h`, if
any (the per-height voted set used for equivocation checks). -/
def votedHashAt (s : ChainState) (h v : Nat) : Option Nat :=
  ((candsAt s h).find? (fun c => c.hasVoter v)).map Candidate.hash

/-- Add a validator's weight to the candidate for `hsh`, creating the
candidate on its first vote. -/
def addVoteToCands (cs : List Candidate) (hsh v w : Nat) : List Candidate :=
  if cs.any (fun c => c.hash == hsh) then
    cs.map (fun c => if c.hash == hsh then { c with voters := recordVote c.voters v w } else c)
  else cs ++ [⟨hsh, [(v, w)]⟩]

/-- Heights approved but not yet surfaced. -/
def pendingHeights (s : ChainState) : List Nat := s.pending.map Prod.fst

/-- Heights surfaced so far, in emission order. -/
def emittedHeights (s : ChainState) : List Nat := s.emitted.map Prod.fst

/-- Modelled from the spec: the surfacing loop of rule 7 (section 4.3).
While the height just above the watermark has an approved-but-held
attestation, surface it, advance the watermark and prune candidates at or
below it.  `fuel` bounds the recursion; any fuel exceeding the number of
held attestations reaches the fixpoint. -/
def flushEmit : Nat → ChainState → ChainState
  | 0, s => s
  | fuel + 1, s =>
    match s.pending.find? (fun q => q.fst == s.watermark + 1) with
    | none => s
    | some q =>
      flushEmit fuel
        { watermark := s.watermark + 1,
          cands := s.cands.filter (fun e => decide (s.watermark + 1 < e.fst)),
          pending := s.pending.eraseP (fun r => r.fst == s.watermark + 1),
          emitted := s.emitted ++ [(s.watermark + 1, q.snd)] }

/-- Modelled from the spec: a vote transaction `{validator, height, hash}`
for a fixed chain (section 6); the signature is abstracted away, its
verification being folded into the positive-power check. -/
structure Vote where
  validator : Nat
  height : Nat
  hash : Nat
deriving DecidableEq

/-- Outcome reported to the submitter of a vote (section 7). -/
inductive VoteRes
  | ok
  | invalidVote
  | equivocation
  | windowExceeded
deriving DecidableEq

/-- Modelled from the spec: rules 5-7 of `submit_vote` (section 4.3) — add
the validator's weight to the tally for `(height, hsh)`; if the candidate now
reaches quorum it becomes an Attestation: all other candidates at that height
are discarded, and it is surfaced immediately (advancing the watermark and
flushing any held approvals) when its height is `watermark + 1`, held in
`pending` otherwise.  `updatedCandidate` is the candidate for `hsh` after the
weight was added. -/
def updatedCandidate (p : AggParams) (s : ChainState) (v h hsh : Nat) : Candidate :=
  match (addVoteToCands (candsAt s h) hsh v (p.power v)).find? (fun c => c.hash == hsh) with
  | some c => c
  | none => ⟨hsh, [(v, p.power v)]⟩

/-- Modelled from the spec: rules 5-7 continued — the state transition made
once the vote has passed all rejection checks. -/
def recordAndMaybeApprove (p : AggParams) (s : ChainState) (v h hsh : Nat) : ChainState :=
  if candidateApproved p (updatedCandidate p s v h hsh) then
    if h = s.watermark + 1 then
      flushEmit (s.pending.length + 1)
        { watermark := s.watermark + 1,
          cands := s.cands.filter (fun e => decide (s.watermark + 1 < e.fst)),
          pending := s.pending,
          emitted := s.emitted ++ [(s.watermark + 1, hsh)] }
    else
      { s with cands := s.cands.filter (fun e => e.fst != h),
               pending := (h, hsh) :: s.pending }
  else
    { s with cands :=
        (h, addVoteToCands (candsAt s h) hsh v (p.power v)) :: s.cands.eraseP (fun e => e.fst == h) }

/-- Modelled from the spec: the `submit_vote` operation (section 4.3).  The
checks are applied in the spec's order: positive voting power (rule 1, with
signature verification abstracted), already-decided no-op (rule 2), window
bound (rule 3), a no-op for heights already approved but not yet surfaced
(rule 7's "already marked approved" state, which can hold at most one
attestation per height), the equivocation check (rule 4), and finally tally
update and approval (rules 5-7). -/
def submitVote (p : AggParams) (s : ChainState) (vt : Vote) : VoteRes × ChainState :=
  if p.power vt.validator = 0 then (VoteRes.invalidVote, s)
  else if vt.height ≤ s.watermark then (VoteRes.ok, s)
  else if s.watermark + p.window < vt.height then (VoteRes.windowExceeded, s)
  else if (pendingHeights s).contains vt.height then (VoteRes.ok, s)
  else
    match votedHashAt s vt.height vt.validator with
    | some a => if a = vt.hash then (VoteRes.ok, s) else (VoteRes.equivocation, s)
    | none => (VoteRes.ok, recordAndMaybeApprove p s vt.validator vt.height vt.hash)

/-- Fold a replicated, ordered list of votes through the Aggregator. -/
def runVotes (p : AggParams) (s : ChainState) (vs : List Vote) : ChainState :=
  vs.foldl (fun st vt => (submitVote p st vt).2) s

/-- Fresh per-chain state at watermark `w0`. -/
def initState (w0 : Nat) : ChainState := ⟨w0, [], [], []⟩

/-- Parameters of the spec's concrete scenario (section 8): total power 100,
threshold more than two thirds with ties rounding up, three validators of
weights 30, 30 and 10. -/
def pScenario : AggParams :=
  ⟨5, 2, 3, 100, fun v => if v = 1 then 30 else if v = 2 then 30 else if v = 3 then 10 else 0⟩

/-- Sanity check matching the spec scenario: the quorum threshold for
`T = 100`, `f = 2/3` with ties rounding up is 67. -/
theorem scenario_threshold : quorumThreshold pScenario = 67 := by decide

/-- Sanity check matching the spec scenario: after weights 30 and 30
(60 < 67) nothing is surfaced. -/
theorem scenario_two_votes :
    emittedHeights (runVotes pScenario (initState 99)
      [⟨1, 100, 55⟩, ⟨2, 100, 55⟩]) = [] := by decide

/-- Sanity check matching the spec scenario: after the third vote
(70 ≥ 67) the attestation at height 100 is surfaced and the watermark
advances to 100. -/
theorem scenario_three_votes :
    emittedHeights (runVotes pScenario (initState 99)
      [⟨1, 100, 55⟩, ⟨2, 100, 55⟩, ⟨3, 100, 55⟩]) = [100]
    ∧ (runVotes pScenario (initState 99)
      [⟨1, 100, 55⟩, ⟨2, 100, 55⟩, ⟨3, 100, 55⟩]).watermark = 100 := by decide

theorem flushEmit_inv (b : Nat) :
    ∀ (fuel : Nat) (s : ChainState),
      emittedHeights s = List.range' (b + 1) (s.watermark - b) → b ≤ s.watermark →
      emittedHeights (flushEmit fuel s)
          = List.range' (b + 1) ((flushEmit fuel s).watermark - b)
        ∧ b ≤ (flushEmit fuel s).watermark := by
  intro fuel
  induction fuel with
  | zero => intro s h1 h2; exact ⟨h1, h2⟩
  | succ n ih =>
    intro s h1 h2
    rw [flushEmit]
    cases hq : s.pending.find? (fun q => q.fst == s.watermark + 1) with
    | none => exact ⟨h1, h2⟩
    | some q =>
      apply ih
      · simp only [emittedHeights, List.map_append, List.map_cons, List.map_nil]
        simp only [emittedHeights] at h1
        rw [show s.watermark + 1 - b = (s.watermark - b) + 1 from by omega,
          List.range'_1_concat, h1]
        congr 1
        congr 1
        omega
      · show b ≤ s.watermark + 1
        omega

theorem recordAndMaybeApprove_inv (p : AggParams) (s : ChainState) (v h hsh b : Nat)
    (h1 : emittedHeights s = List.range' (b + 1) (s.watermark - b)) (h2 : b ≤ s.watermark) :
    emittedHeights (recordAndMaybeApprove p s v h hsh)
        = List.range' (b + 1) ((recordAndMaybeApprove p s v h hsh).watermark - b)
      ∧ b ≤ (recordAndMaybeApprove p s v h hsh).watermark := by
  unfold recordAndMaybeApprove
  split
  · split
    · apply flushEmit_inv
      · simp only [emittedHeights, List.map_append, List.map_cons, List.map_nil]
        simp only [emittedHeights] at h1
        rw [show s.watermark + 1 - b = (s.watermark - b) + 1 from by omega,
          List.range'_1_concat, h1]
        congr 1
        congr 1
        omega
      · show b ≤ s.watermark + 1
        omega
    · exact ⟨h1, h2⟩
  · exact ⟨h1, h2⟩

theorem submitVote_inv (p : AggParams) (s : ChainState) (vt : Vote) (b : Nat)
    (h1 : emittedHeights s = List.range' (b + 1) (s.watermark - b)) (h2 : b ≤ s.watermark) :
    emittedHeights (submitVote p s vt).2
        = List.range' (b + 1) ((submitVote p s vt).2.watermark - b)
      ∧ b ≤ (submitVote p s vt).2.watermark := by
  unfold submitVote
  split
  · exact ⟨h1, h2⟩
  · split
    · exact ⟨h1, h2⟩
    · split
      · exact ⟨h1, h2⟩
      · split
        · exact ⟨h1, h2⟩
        · split
          · split
            · exact ⟨h1, h2⟩
            · exact ⟨h1, h2⟩
          · exact recordAndMaybeApprove_inv p s vt.validator vt.height vt.hash b h1 h2

theorem runVotes_inv (p : AggParams) (b : Nat) :
    ∀ (vs : List Vote) (s : ChainState),
      emittedHeights s = List.range' (b + 1) (s.watermark - b) → b ≤ s.watermark →
      emittedHeights (runVotes p s vs)
          = List.range' (b + 1) ((runVotes p s vs).watermark - b)
        ∧ b ≤ (runVotes p s vs).watermark := by
  intro vs
  induction vs with
  | nil => intro s h1 h2; exact ⟨h1, h2⟩
  | cons vt rest ih =>
    intro s h1 h2
    have hstep := submitVote_inv p s vt b h1 h2
    exact ih (submitVote p s vt).2 hstep.1 hstep.2

/-- C2: for every chain, every initial watermark and every replicated vote
sequence, the heights surfaced by the Aggregator are exactly the consecutive
range `watermark0 + 1 .. watermark` — strictly increasing, with no gaps and
no duplicates; an approval at `watermark + 1` is surfaced at once while a
higher approval is held in `pending` until the range below it has been
surfaced, which is what keeps the surfaced sequence consecutive. -/
theorem agg_emitted_gapless (p : AggParams) (w0 : Nat) (vs : List Vote) :
    emittedHeights (runVotes p (initState w0) vs)
        = List.range' (w0 + 1) ((runVotes p (initState w0) vs).watermark - w0)
    ∧ List.Pairwise (· < ·) (emittedHeights (runVotes p (initState w0) vs)) := by
  have h := runVotes_inv p w0 vs (initState w0) (by simp [emittedHeights, initState]) (by simp [initState])
  refine ⟨h.1, ?_⟩
  rw [h.1]
  exact List.pairwise_lt_range' _ _

/-- C3: a validator with a recorded vote for hash `a` at height `h` has any
later vote for a different hash at `h` rejected as Equivocation with the
whole state — in particular the recorded vote and the tally for `a` —
unchanged, while resubmitting the same hash `a` is accepted as a no-op,
also leaving the state unchanged. -/
theorem agg_equivocation (p : AggParams) (s : ChainState) (v h a : Nat)
    (hpow : p.power v ≠ 0)
    (hwm : s.watermark < h) (hwin : h ≤ s.watermark + p.window)
    (hpend : (pendingHeights s).contains h = false)
    (hvoted : votedHashAt s h v = some a) :
    (∀ bHash, bHash ≠ a → submitVote p s ⟨v, h, bHash⟩ = (VoteRes.equivocation, s))
    ∧ submitVote p s ⟨v, h, a⟩ = (VoteRes.ok, s) := by
  have h2 : ¬ (h ≤ s.watermark) := Nat.not_le.2 hwm
  have h3 : ¬ (s.watermark + p.window < h) := Nat.not_lt.2 hwin
  have h5 : h ∉ pendingHeights s := by simpa using hpend
  constructor
  · intro bHash hne
    have h4 : ¬ (a = bHash) := fun hh => hne hh.symm
    simp [submitVote, hpow, h2, h3, h5, hvoted, h4]
  · simp [submitVote, hpow, h2, h3, h5, hvoted]

/-- Aggregator state for the C3 witness: validator 1 (weight 30) has a
recorded vote for hash 55 at height 100, watermark 99. -/
def sC3 : ChainState := ⟨99, [(100, [⟨55, [(1, 30)]⟩])], [], []⟩

theorem agg_equivocation_witness :
    submitVote pScenario sC3 ⟨1, 100, 77⟩ = (VoteRes.equivocation, sC3)
    ∧ submitVote pScenario sC3 ⟨1, 100, 55⟩ = (VoteRes.ok, sC3) :=
  ⟨(agg_equivocation pScenario sC3 1 100 55 (by decide) (by decide) (by decide)
      (by decide) rfl).1 77 (by decide),
    (agg_equivocation pScenario sC3 1 100 55 (by decide) (by decide) (by decide)
      (by decide) rfl).2⟩

/-- C4: a vote whose claimed height is at or below the chain's watermark is
accepted as a no-op with the state unchanged, and a vote whose claimed
height exceeds `watermark + window` is rejected as WindowExceeded with the
state unchanged (both for votes passing the validator-power check, which
the spec applies first). -/
theorem agg_watermark_window (p : AggParams) (s : ChainState) (vt : Vote)
    (hpow : p.power vt.validator ≠ 0) :
    (vt.height ≤ s.watermark → submitVote p s vt = (VoteRes.ok, s))
    ∧ (s.watermark + p.window < vt.height → submitVote p s vt = (VoteRes.windowExceeded, s)) := by
  constructor
  · intro hle
    simp [submitVote, hpow, hle]
  · intro hgt
    have h2 : ¬ (vt.height ≤ s.watermark) := by omega
    simp [submitVote, hpow, h2, hgt]

theorem agg_watermark_window_witness :
    submitVote pScenario (initState 99) ⟨1, 50, 0⟩ = (VoteRes.ok, initState 99)
    ∧ submitVote pScenario (initState 99) ⟨1, 200, 0⟩ = (VoteRes.windowExceeded, initState 99) :=
  ⟨(agg_watermark_window pScenario (initState 99) ⟨1, 50, 0⟩ (by decide)).1 (by decide),
    (agg_watermark_window pScenario (initState 99) ⟨1, 200, 0⟩ (by decide)).2 (by decide)⟩

/-- Voter list accumulated by feeding a stream of same-candidate votes
through the Aggregator's `recordVote`, starting from `acc`. -/
def votersFrom (wt : Nat → Nat) (acc : List (Nat × Nat)) (vs : List Nat) : List (Nat × Nat) :=
  vs.foldl (fun a v => recordVote a v (wt v)) acc

/-- Voter list of the candidate built from the votes `vs` (validator ids, in
arrival order) under the weight assignment `wt`. -/
def votersOf (wt : Nat → Nat) (vs : List Nat) : List (Nat × Nat) :=
  votersFrom wt [] vs

theorem recordVote_fst_mem (acc : List (Nat × Nat)) (v w x : Nat) :
    x ∈ (recordVote acc v w).map Prod.fst ↔ (x ∈ acc.map Prod.fst ∨ x = v) := by
  unfold recordVote
  split <;> rename_i hcon
  · simp only [iff_def]
    refine ⟨fun hx => Or.inl hx, ?_⟩
    rintro (hx | rfl)
    · exact hx
    · simpa using hcon
  · simp [or_comm]

theorem recordVote_fst_nodup (acc : List (Nat × Nat)) (v w : Nat)
    (hn : (acc.map Prod.fst).Nodup) : ((recordVote acc v w).map Prod.fst).Nodup := by
  unfold recordVote
  split <;> rename_i hcon
  · exact hn
  · simp only [List.map_cons, List.nodup_cons]
    exact ⟨by simpa using hcon, hn⟩

theorem recordVote_snd (wt : Nat → Nat) (acc : List (Nat × Nat)) (v : Nat)
    (hs : ∀ q ∈ acc, q.2 = wt q.1) :
    ∀ q ∈ recordVote acc v (wt v), q.2 = wt q.1 := by
  unfold recordVote
  split
  · exact hs
  · intro q hq
    rcases List.mem_cons.1 hq with rfl | hq
    · rfl
    · exact hs q hq

theorem votersFrom_inv (wt : Nat → Nat) :
    ∀ (vs : List Nat) (acc : List (Nat × Nat)),
      (acc.map Prod.fst).Nodup → (∀ q ∈ acc, q.2 = wt q.1) →
      ((votersFrom wt acc vs).map Prod.fst).Nodup
      ∧ (∀ x, x ∈ (votersFrom wt acc vs).map Prod.fst ↔ (x ∈ acc.map Prod.fst ∨ x ∈ vs))
      ∧ (∀ q ∈ votersFrom wt acc vs, q.2 = wt q.1) := by
  intro vs
  induction vs with
  | nil =>
    intro acc hn hs
    exact ⟨hn, fun x => by simp [votersFrom], hs⟩
  | cons v rest ih =>
    intro acc hn hs
    have hstep := ih (recordVote acc v (wt v)) (recordVote_fst_nodup acc v (wt v) hn)
      (recordVote_snd wt acc v hs)
    have hdef : votersFrom wt acc (v :: rest) = votersFrom wt (recordVote acc v (wt v)) rest := rfl
    rw [hdef]
    refine ⟨hstep.1, ?_, hstep.2.2⟩
    intro x
    rw [hstep.2.1 x, recordVote_fst_mem]
    simp only [List.mem_cons]
    tauto

theorem votersOf_fst_perm_dedup (wt : Nat → Nat) (vs : List Nat) :
    ((votersOf wt vs).map Prod.fst).Perm vs.dedup := by
  have h := votersFrom_inv wt vs [] (by simp) (by simp)
  refine (List.perm_ext_iff_of_nodup h.1 vs.nodup_dedup).2 ?_
  intro a
  rw [List.mem_dedup, h.2.1 a]
  simp

theorem tally_votersOf (wt : Nat → Nat) (hsh : Nat) (vs : List Nat) :
    Candidate.tally ⟨hsh, votersOf wt vs⟩ = (vs.dedup.map wt).sum := by
  have hsnd := (votersFrom_inv wt vs [] (by simp) (by simp)).2.2
  unfold Candidate.tally
  have h1 : (votersOf wt vs).map Prod.snd = ((votersOf wt vs).map Prod.fst).map wt := by
    rw [List.map_map]
    exact List.map_congr_left hsnd
  rw [h1]
  exact ((votersOf_fst_perm_dedup wt vs).map wt).sum_eq

theorem quorumThreshold_le_iff (p : AggParams) (k : Nat) (hden : 0 < p.thrDen) :
    quorumThreshold p ≤ k ↔ p.thrNum * p.totalPower ≤ k * p.thrDen := by
  unfold quorumThreshold ceilMulDiv
  rw [Nat.div_le_iff_le_mul_add_pred hden]
  constructor
  · intro h
    have h3 := Nat.le_of_add_le_add_right h
    rwa [Nat.mul_comm p.thrDen k] at h3
  · intro h
    have h2 := Nat.add_le_add_right h (p.thrDen - 1)
    rwa [Nat.mul_comm k p.thrDen] at h2

/-- C1: a candidate accumulated by the Aggregator from the vote stream `vs`
tallies exactly the summed weight of its distinct voters; it is approved
precisely when that sum reaches `ceil(f × T)` — equivalently, for a positive
threshold denominator, when `tally * thrDen ≥ thrNum * T` ("ties round up")
— and the approval outcome does not depend on the order in which the votes
arrived. -/
theorem agg_quorum (p : AggParams) (hsh : Nat) (vs : List Nat) :
    Candidate.tally ⟨hsh, votersOf p.power vs⟩ = (vs.dedup.map p.power).sum
    ∧ (candidateApproved p ⟨hsh, votersOf p.power vs⟩ = true
        ↔ quorumThreshold p ≤ (vs.dedup.map p.power).sum)
    ∧ (∀ k, 0 < p.thrDen →
        (quorumThreshold p ≤ k ↔ p.thrNum * p.totalPower ≤ k * p.thrDen))
    ∧ (∀ vs', vs.Perm vs' →
        candidateApproved p ⟨hsh, votersOf p.power vs⟩
          = candidateApproved p ⟨hsh, votersOf p.power vs'⟩) := by
  refine ⟨tally_votersOf p.power hsh vs, ?_, ?_, ?_⟩
  · unfold candidateApproved
    rw [tally_votersOf p.power hsh vs]
    exact decide_eq_true_iff
  · intro k hden
    exact quorumThreshold_le_iff p k hden
  · intro vs' hperm
    unfold candidateApproved
    rw [tally_votersOf p.power hsh vs, tally_votersOf p.power hsh vs']
    rw [((hperm.dedup).map p.power).sum_eq]

theorem agg_quorum_witness :
    Candidate.tally ⟨55, votersOf pScenario.power [1, 2, 3]⟩ = 70
    ∧ (quorumThreshold pScenario ≤ 70 ↔ 2 * 100 ≤ 70 * 3)
    ∧ candidateApproved pScenario ⟨55, votersOf pScenario.power [1, 2, 3]⟩
        = candidateApproved pScenario ⟨55, votersOf pScenario.power [3, 1, 2]⟩ :=
  ⟨(agg_quorum pScenario 55 [1, 2, 3]).1.trans (by decide),
    (agg_quorum pScenario 55 [1, 2, 3]).2.2.1 70 (by decide),
    (agg_quorum pScenario 55 [1, 2, 3]).2.2.2 [3, 1, 2] (by decide)⟩

/-- Source model of the Indexer's `Cursor` record
(monitor/xmonitor/indexer/indexer.pb.go): chain id, confidence level and
block height, with primary key `(chain_id, conf_level)`. -/
structure Cursor where
  chainId : Nat
  confLevel : Nat
  blockHeight : Nat
deriving DecidableEq

/-- Height stored for `(cid, lvl)` in a cursor table (0 when absent, the
proto3 default). -/
def getCursor (store : List Cursor) (cid lvl : Nat) : Nat :=
  match store.find? (fun c => c.chainId == cid && c.confLevel == lvl) with
  | some c => c.blockHeight
  | none => 0

/-- Modelled from the spec: the Indexer's cursor update (section 4.4) — the
cursor for `(cid, lvl)` is advanced to `h`, and a write that would decrease
it is rejected as an internal-consistency error.  Only the generated record
type appears in the given sources; the write policy is taken from the
specification's words. -/
def setCursor (store : List Cursor) (cid lvl h : Nat) : Except String (List Cursor) :=
  if h < getCursor store cid lvl then Except.error "cursor height decrease"
  else Except.ok (⟨cid, lvl, h⟩ :: store)

/-- Apply one cursor write, keeping the store unchanged when the write is
rejected. -/
def applyCursorWrite (store : List Cursor) (w : Cursor) : List Cursor :=
  match setCursor store w.chainId w.confLevel w.blockHeight with
  | Except.ok s => s
  | Except.error _ => store

/-- Apply a sequence of cursor writes in order. -/
def runCursorWrites (store : List Cursor) (ws : List Cursor) : List Cursor :=
  ws.foldl applyCursorWrite store

theorem applyCursorWrite_mono (store : List Cursor) (w : Cursor) (cid lvl : Nat) :
    getCursor store cid lvl ≤ getCursor (applyCursorWrite store w) cid lvl := by
  by_cases hlt : w.blockHeight < getCursor store w.chainId w.confLevel
  · have he : applyCursorWrite store w = store := by
      unfold applyCursorWrite setCursor
      rw [if_pos hlt]
    rw [he]
  · have he : applyCursorWrite store w = ⟨w.chainId, w.confLevel, w.blockHeight⟩ :: store := by
      unfold applyCursorWrite setCursor
      rw [if_neg hlt]
    rw [he]
    unfold getCursor
    cases hm : (fun c => c.chainId == cid && c.confLevel == lvl) (⟨w.chainId, w.confLevel, w.blockHeight⟩ : Cursor) with
    | true =>
      simp only [List.find?_cons, hm]
      have hc : w.chainId = cid ∧ w.confLevel = lvl := by
        simpa using hm
      rcases hc with ⟨rfl, rfl⟩
      exact Nat.le_of_not_lt hlt
    | false =>
      simp only [List.find?_cons, hm]
      exact Nat.le_refl _

/-- C5: cursors never decrease — any sequence of cursor writes leaves every
key's stored height at least where it was, and an individual write that
would decrease a cursor is rejected as an internal-consistency error,
leaving the store unchanged. -/
theorem cursor_monotone (store : List Cursor) (ws : List Cursor) (cid lvl : Nat) :
    getCursor store cid lvl ≤ getCursor (runCursorWrites store ws) cid lvl
    ∧ (∀ h, h < getCursor store cid lvl →
        setCursor store cid lvl h = Except.error "cursor height decrease"
        ∧ applyCursorWrite store ⟨cid, lvl, h⟩ = store) := by
  constructor
  · induction ws generalizing store with
    | nil => exact Nat.le_refl _
    | cons w rest ih =>
      exact Nat.le_trans (applyCursorWrite_mono store w cid lvl) (ih (applyCursorWrite store w))
  · intro h hlt
    constructor
    · unfold setCursor
      rw [if_pos hlt]
    · unfold applyCursorWrite setCursor
      rw [if_pos hlt]

theorem cursor_monotone_witness :
    getCursor [] 7 1 ≤ getCursor (runCursorWrites [] [⟨7, 1, 100⟩, ⟨7, 1, 40⟩]) 7 1
    ∧ setCursor [⟨7, 1, 100⟩] 7 1 40 = Except.error "cursor height decrease" :=
  ⟨(cursor_monotone [] [⟨7, 1, 100⟩, ⟨7, 1, 40⟩] 7 1).1,
    ((cursor_monotone [⟨7, 1, 100⟩] [] 7 1).2 40 (by decide)).1⟩
